import Mathlib

/-!
Verification development for the emec-2021-api repository.

This file contains a shallow embedding of the parts of the code base that the
verified properties are about:

* `emec.py` — the catalog normalization pipeline (`process_source_catalog`):
  era filtering, timestamp reconstruction via Python `datetime` calendar
  arithmetic, nullable-column policies;
* `fdsn.py` — the query engine (`Param`, `apply_query_param`,
  `validate_param`) and the two serializers (`to_text`, `to_xml`);
* `flaskapp.py` — the request-level parameter folding of `get_events`.

Modelling conventions: pandas NaN / nullable columns are `Option`; Python
floats are `Rat` (no rounding-sensitive operation occurs in the embedded
code, only comparisons, sorting and rendering); Unix timestamps are `Int`
seconds (all timestamps produced by the embedded code are whole seconds);
naive `datetime` objects are interpreted in UTC, so `datetime.timestamp()`
is pure calendar arithmetic.  Python integer division `//` is floor
division, which coincides with Lean `Int` division (`Int.ediv`) for the
positive divisors used here.
-/

/-- Canonical catalog event: one row of the processed EMEC 2021 catalog,
i.e. the schema produced by `process_source_catalog` (emec.py, EmecField
columns).  Columns that pandas can hold as NaN (`magnitude`, `originalmag`,
`depth`) are modelled as `Option Rat`. -/
structure Event where
  event_id : Int
  time : Int
  lat : Rat
  lon : Rat
  mag : Option Rat
  magtype : String
  originalmag : Option Rat
  originalmagtype : String
  depth : Option Rat
  isc_id : Int
deriving Repr, DecidableEq, Inhabited

/-- Raw source-catalog row (EMEC-2021_events.csv), the input of
`process_source_catalog` (emec.py).  Columns that the source may leave
empty (pandas NaN) are `Option`; `year`, `latitude`, `longitude` and
`event_id` are mandatory identity fields. -/
structure RawRow where
  event_id : Int
  year : Int
  month : Option Int
  day : Option Int
  hour : Option Int
  minute : Option Int
  second : Option Int
  latitude : Rat
  longitude : Rat
  mw : Option Rat
  originalmag : Option Rat
  originalmagtype : Option String
  depth : Option Rat
  isc_id : Option Int
deriving Repr, DecidableEq, Inhabited

/-- Python `datetime`: proleptic-Gregorian leap-year test
(`y % 4 == 0 and (y % 100 != 0 or y % 400 == 0)`). -/
def isLeap (y : Int) : Bool :=
  y % 4 == 0 && (y % 100 != 0 || y % 400 == 0)

/-- Python `datetime._days_in_month`. -/
def daysInMonth (y m : Int) : Int :=
  if m = 2 then (if isLeap y then 29 else 28)
  else if m = 4 ∨ m = 6 ∨ m = 9 ∨ m = 11 then 30
  else 31

/-- Python `datetime._days_before_month`: number of days in year `y`
strictly before month `m` (the `_DAYS_BEFORE_MONTH` table plus the leap
correction for `m > 2`). -/
def daysBeforeMonth (y m : Int) : Int :=
  let base : Int :=
    if m = 1 then 0 else if m = 2 then 31 else if m = 3 then 59
    else if m = 4 then 90 else if m = 5 then 120 else if m = 6 then 151
    else if m = 7 then 181 else if m = 8 then 212 else if m = 9 then 243
    else if m = 10 then 273 else if m = 11 then 304 else 334
  base + (if decide (2 < m) && isLeap y then 1 else 0)

/-- Python `datetime._days_before_year`: days strictly before January 1 of
year `y`, counting from the proleptic-Gregorian ordinal origin
(ordinal 1 = January 1 of year 1). -/
def daysBeforeYear (y : Int) : Int :=
  (y - 1) * 365 + (y - 1) / 4 - (y - 1) / 100 + (y - 1) / 400

/-- Python `datetime._ymd2ord`: proleptic-Gregorian ordinal of the calendar
date `(y, m, d)`. -/
def toOrdinal (y m d : Int) : Int :=
  daysBeforeYear y + daysBeforeMonth y m + d

/-- Ordinal of the Unix epoch 1970-01-01 (Python
`datetime(1970, 1, 1).toordinal()`). -/
def epochOrdinal : Int := 719163

/-- Model of Python `datetime(y, m, d).timestamp()` under UTC: the Unix
timestamp (seconds) of midnight of the calendar date `(y, m, d)`. -/
def datetimeTimestamp (y m d : Int) : Int :=
  (toOrdinal y m d - epochOrdinal) * 86400

/-- Timestamp reconstruction of `process_source_catalog` (emec.py) for one
raw row: `fillna(0)` on the date components, month/day equal to 0 replaced
by 1, `second` column replaced by `hour*3600 + minute*60 + second`, and
finally `(datetime(y, mo, d) + timedelta(seconds=s)).timestamp()`.  Since
timestamps are seconds, adding `timedelta(seconds=s)` adds exactly `s`. -/
def row_timestamp (r : RawRow) : Int :=
  let mo0 := r.month.getD 0
  let mo := if mo0 = 0 then 1 else mo0
  let d0 := r.day.getD 0
  let d := if d0 = 0 then 1 else d0
  let h := r.hour.getD 0
  let mi := r.minute.getD 0
  let s := h * 3600 + mi * 60 + r.second.getD 0
  datetimeTimestamp r.year mo d + s

/-- The per-row conversion of `process_source_catalog` (emec.py): the
canonical `Event` built from a retained raw row.  `magnitude` is the
harmonized `mw` column with the fixed type label "Mw"; `originalmag` and
`originalmagtype` keep the as-reported values (`fillna('')` on the type);
`isc_id` is `fillna(0)`. -/
def eventOfRow (r : RawRow) : Event :=
  { event_id := r.event_id
    time := row_timestamp r
    lat := r.latitude
    lon := r.longitude
    mag := r.mw
    magtype := "Mw"
    originalmag := r.originalmag
    originalmagtype := r.originalmagtype.getD ""
    depth := r.depth
    isc_id := r.isc_id.getD 0 }

/-- `process_source_catalog` (emec.py): keep only rows with `year >= 1900`
(pre-1900 rows are discarded), then build the canonical catalog row by
row. -/
def process_source_catalog (src : List RawRow) : List Event :=
  (src.filter (fun r => decide (1900 ≤ r.year))).map eventOfRow

/-- Sanity check: the ordinal of the Unix epoch matches Python
`datetime(1970, 1, 1).toordinal() == 719163`. -/
theorem toOrdinal_epoch : toOrdinal 1970 1 1 = epochOrdinal := by decide

/-- Sanity check: midnight 2021-01-01 UTC is Unix timestamp 1609459200. -/
theorem datetimeTimestamp_2021 : datetimeTimestamp 2021 1 1 = 1609459200 := by
  decide

/-- The FDSN query parameters supported by the application (`Param` enum in
fdsn.py).  The enum member name is the short alias, the enum value the
verbose one; `end_` models the Python member named `end` (a Lean
keyword). -/
inductive Param where
  | minlat | maxlat | minlon | maxlon
  | minmag | maxmag | mindepth | maxdepth
  | magtype | start | end_ | orderby | format
deriving Repr, DecidableEq, Inhabited

/-- Short alias of a parameter (the Python enum member name). -/
def Param.shortName : Param → String
  | .minlat => "minlat"
  | .maxlat => "maxlat"
  | .minlon => "minlon"
  | .maxlon => "maxlon"
  | .minmag => "minmag"
  | .maxmag => "maxmag"
  | .mindepth => "mindepth"
  | .maxdepth => "maxdepth"
  | .magtype => "magtype"
  | .start => "start"
  | .end_ => "end"
  | .orderby => "orderby"
  | .format => "format"

/-- Verbose alias of a parameter (the Python enum member value). -/
def Param.verboseName : Param → String
  | .minlat => "minlatitude"
  | .maxlat => "maxlatitude"
  | .minlon => "minlongitude"
  | .maxlon => "maxlongitude"
  | .minmag => "minmagnitude"
  | .maxmag => "maxmagnitude"
  | .mindepth => "mindepth"
  | .maxdepth => "maxdepth"
  | .magtype => "magnitudetype"
  | .start => "starttime"
  | .end_ => "endtime"
  | .orderby => "orderby"
  | .format => "format"

/-- The two sort keys that `orderby` can resolve to (`EmecField.time`,
`EmecField.mag` in fdsn.py). -/
inductive SortKey where
  | time | mag
deriving Repr, DecidableEq, Inhabited

/-- A validated query value as returned by `validate_param` (fdsn.py):
a float (`Rat`), an epoch timestamp (from `datetime.fromisoformat`), a
plain string (for `magtype` and `format`), or a resolved sort
specification `(sortKey, ascending)` for `orderby`. -/
inductive PValue where
  | num (q : Rat)
  | time (t : Int)
  | str (s : String)
  | sort (key : SortKey) (ascending : Bool)
deriving Repr, DecidableEq, Inhabited

/-- The sort key of an event as an optional numeric value: `time` is
non-null, `magnitude` may be NaN (modelled `none`). -/
def sortKeyVal : SortKey → Event → Option Rat
  | .time, e => some (e.time : Rat)
  | .mag, e => e.mag

/-- Value of the row that position `i` of the index array `t` points at
(numpy argsort permutes an index array `tosort` over a fixed value
buffer). -/
def idxVal (v : List Rat) (t : List Nat) (i : Nat) : Rat :=
  v.getD (t.getD i 0) 0

/-- Swap two positions of the index array (`INTP_SWAP` in numpy). -/
def lswap (t : List Nat) (i j : Nat) : List Nat :=
  (t.set i (t.getD j 0)).set j (t.getD i 0)

/-- Upward Hoare scan of numpy `aquicksort` (quicksort.c.src):
`do ++pi; while (v[*pi] < vp);` — the caller passes `i+1`; the pivot
placed at the right end is a sentinel, so the fuel (one more than the
array length) never binds. -/
def scanUp (v : List Rat) (t : List Nat) (vp : Rat) : Nat → Nat → Nat
  | 0, i => i
  | fuel + 1, i =>
    if idxVal v t i < vp then scanUp v t vp fuel (i + 1) else i

/-- Downward Hoare scan of numpy `aquicksort`:
`do --pj; while (vp < v[*pj]);` — the caller passes `j-1`; the
median-of-three minimum at the left end is a sentinel. -/
def scanDown (v : List Rat) (t : List Nat) (vp : Rat) : Nat → Nat → Nat
  | 0, j => j
  | fuel + 1, j =>
    if vp < idxVal v t j then scanDown v t vp fuel (j - 1) else j

/-- The Hoare partition exchange loop of numpy `aquicksort`: scan up and
down, stop when the cursors cross, otherwise swap and continue.  Returns
the updated index array and the final up-cursor.  These cross-swaps are
what reorders tied elements (the sort is not stable). -/
def partLoop (v : List Rat) (vp : Rat) :
    Nat → List Nat → Nat → Nat → List Nat × Nat
  | 0, t, i, _ => (t, i)
  | fuel + 1, t, i, j =>
    let i := scanUp v t vp (t.length + 1) (i + 1)
    let j := scanDown v t vp (t.length + 1) (j - 1)
    if j ≤ i then (t, i)
    else partLoop v vp fuel (lswap t i j) i j

/-- One partition step of numpy `aquicksort` on `t[lo..hi]`:
median-of-three pivot selection (swapping the three samples into order),
pivot parked at `hi-1`, Hoare exchange loop started at `(lo, hi-1)`,
pivot swapped into its final place.  Returns the updated index array and
the pivot position. -/
def partitionStep (v : List Rat) (t : List Nat) (lo hi : Nat) :
    List Nat × Nat :=
  let pm := lo + (hi - lo) / 2
  let t := if idxVal v t pm < idxVal v t lo then lswap t pm lo else t
  let t := if idxVal v t hi < idxVal v t pm then lswap t hi pm else t
  let t := if idxVal v t pm < idxVal v t lo then lswap t pm lo else t
  let vp := idxVal v t pm
  let t := lswap t pm (hi - 1)
  let s := partLoop v vp (t.length + 1) t lo (hi - 1)
  (lswap s.1 s.2 (hi - 1), s.2)

/-- The shift phase of one insertion-sort step of numpy `aquicksort`:
`while (pj > pl && vp < v[*pk]) *pj-- = *pk--;`. -/
def insShift (v : List Rat) (vp : Rat) (lo : Nat) :
    Nat → List Nat → Nat → List Nat × Nat
  | 0, t, pj => (t, pj)
  | fuel + 1, t, pj =>
    if lo < pj ∧ vp < idxVal v t (pj - 1) then
      insShift v vp lo fuel (t.set pj (t.getD (pj - 1) 0)) (pj - 1)
    else (t, pj)

/-- One insertion-sort step at position `pi` (stable: elements shift only
while strictly greater). -/
def insOne (v : List Rat) (t : List Nat) (lo pi : Nat) : List Nat :=
  let vi := t.getD pi 0
  let s := insShift v (v.getD vi 0) lo (t.length + 1) t pi
  s.1.set s.2 vi

/-- The insertion sort numpy `aquicksort` applies to ranges of at most
SMALL_QUICKSORT + 1 = 16 elements: `for (pi = pl + 1; pi <= pr; ++pi)`. -/
def insSortRange (v : List Rat) (t : List Nat) (lo hi : Nat) : List Nat :=
  (List.range' (lo + 1) (hi + 1 - (lo + 1))).foldl
    (fun t pi => insOne v t lo pi) t

/-- The sift-down loop of numpy `aheapsort` (argsort variant), one-based
on `a[k] = t[lo+k-1]` with heap size `n`; `tmp` is the index being
sifted. -/
def heapSift (v : List Rat) (lo n tmp : Nat) :
    Nat → List Nat → Nat → Nat → List Nat
  | 0, t, i, _ => t.set (lo + i - 1) tmp
  | fuel + 1, t, i, j =>
    if j ≤ n then
      let j :=
        if j < n ∧
            v.getD (t.getD (lo + j - 1) 0) 0 < v.getD (t.getD (lo + j) 0) 0
        then j + 1 else j
      if v.getD tmp 0 < v.getD (t.getD (lo + j - 1) 0) 0 then
        heapSift v lo n tmp fuel
          (t.set (lo + i - 1) (t.getD (lo + j - 1) 0)) j (j * 2)
      else t.set (lo + i - 1) tmp
    else t.set (lo + i - 1) tmp

/-- numpy `aheapsort` on the subrange `t[lo..hi]`: heapify from `n/2`
down to 1, then repeatedly swap the root behind the shrinking heap and
sift down.  This is the depth-limit fallback of introsort. -/
def aheapsortRange (v : List Rat) (t : List Nat) (lo hi : Nat) : List Nat :=
  let n := hi + 1 - lo
  let t := (List.range (n / 2)).reverse.foldl
    (fun t l0 =>
      let l := l0 + 1
      heapSift v lo n (t.getD (lo + l - 1) 0) (n + 2) t l (l * 2)) t
  (List.range (n - 1)).reverse.foldl
    (fun t m0 =>
      let m := m0 + 2
      let tmp := t.getD (lo + m - 1) 0
      let t := t.set (lo + m - 1) (t.getD lo 0)
      heapSift v lo (m - 1) tmp (n + 2) t 1 2) t

/-- The introsort driver loop of numpy `aquicksort`: partition while the
range is longer than SMALL_QUICKSORT = 15 (falling back to `aheapsort`
when the depth budget is exhausted, decrementing it per partition),
insertion-sort short ranges, and manage pending subranges on an explicit
stack, always recursing into the smaller side first.  The fuel bounds the
iteration count (at most two per array position plus the final pops) and
never binds for the generous value passed by `aquicksort`. -/
def introLoop (v : List Rat) :
    Nat → List Nat → Nat → Nat → Int → List (Nat × Nat) → List Nat
  | 0, t, _, _, _, _ => t
  | fuel + 1, t, lo, hi, depth, stack =>
    if 15 < hi - lo then
      if depth < 0 then
        let t := aheapsortRange v t lo hi
        match stack with
        | [] => t
        | (l2, h2) :: rest => introLoop v fuel t l2 h2 (depth - 1) rest
      else
        let s := partitionStep v t lo hi
        let pi := s.2
        if pi - lo < hi - pi then
          introLoop v fuel s.1 lo (pi - 1) (depth - 1) ((pi + 1, hi) :: stack)
        else
          introLoop v fuel s.1 (pi + 1) hi (depth - 1) ((lo, pi - 1) :: stack)
    else
      let t := insSortRange v t lo hi
      match stack with
      | [] => t
      | (l2, h2) :: rest => introLoop v fuel t l2 h2 depth rest

/-- numpy `argsort(kind='quicksort')` of a value buffer: the index
permutation `aquicksort` produces on `tosort = [0, …, n-1]`, with depth
budget `npy_get_msb(n) * 2 = 2·⌊log₂ n⌋`.  This is the sort kernel behind
pandas default `DataFrame.sort_values(kind='quicksort')`. -/
def aquicksort (v : List Rat) : List Nat :=
  let n := v.length
  introLoop v (2 * n + 16) (List.range n) 0 (n - 1) (2 * (Nat.log2 n : Int)) []

/-- pandas `nargsort` (core/sorting.py) for one column with
`na_position='last'`: drop the NaN rows, argsort the non-NaN values (for
descending order pandas reverses the values, argsorts ascending and
reverses the result), then append the NaN positions. -/
def nargsort (vals : List (Option Rat)) (asc : Bool) : List Nat :=
  let idx := List.range vals.length
  let nonNanIdx := idx.filter (fun i => (vals.getD i none).isSome)
  let nanIdx := idx.filter (fun i => !(vals.getD i none).isSome)
  let nni := if asc then nonNanIdx else nonNanIdx.reverse
  let nonNans := nni.map (fun i => (vals.getD i none).getD 0)
  let indexer := (aquicksort nonNans).map (fun j => nni.getD j 0)
  (if asc then indexer else indexer.reverse) ++ nanIdx

/-- Model of `catalog.sort_values(by=key, ascending=asc)` in
`apply_query_param` (fdsn.py): reorder the rows by the pandas `nargsort`
indexer for the key column, under pandas' default `kind='quicksort'`
(numpy introsort — NOT a stable sort).  Rows are fetched by `getElem?`;
`nargsort` only produces valid positions, so the `filterMap` drops
nothing. -/
def sort_values (catalog : List Event) (key : SortKey) (asc : Bool) :
    List Event :=
  (nargsort (catalog.map (sortKeyVal key)) asc).filterMap
    (fun i => catalog[i]?)

/-- `apply_query_param` (fdsn.py): apply one validated query parameter to
the catalog, returning the matching rows only.  Pandas semantics of the
column comparisons: a NaN (`none`) cell never satisfies `>=`, `<=`, `>` or
`<`.  Parameters that are no filters (`magtype`, `format`) fall through to
the final `return catalog`; so does a value of the wrong shape for the
parameter (which validated values never have). -/
def apply_query_param (catalog : List Event) (param : Param)
    (value : PValue) : List Event :=
  match param, value with
  | .start, .time t => catalog.filter (fun e => decide (t ≤ e.time))
  | .end_, .time t => catalog.filter (fun e => decide (e.time ≤ t))
  | .minlat, .num v => catalog.filter (fun e => decide (v ≤ e.lat))
  | .maxlat, .num v => catalog.filter (fun e => decide (e.lat ≤ v))
  | .minlon, .num v => catalog.filter (fun e => decide (v ≤ e.lon))
  | .maxlon, .num v => catalog.filter (fun e => decide (e.lon ≤ v))
  | .minmag, .num v =>
      catalog.filter (fun e => match e.mag with
        | some m => decide (v < m)
        | none => false)
  | .maxmag, .num v =>
      catalog.filter (fun e => match e.mag with
        | some m => decide (m < v)
        | none => false)
  | .mindepth, .num v =>
      catalog.filter (fun e => match e.depth with
        | some d => decide (v < d)
        | none => false)
  | .maxdepth, .num v =>
      catalog.filter (fun e => match e.depth with
        | some d => decide (d < v)
        | none => false)
  | .orderby, .sort key asc => sort_values catalog key asc
  | _, _ => catalog

/-- Numeric value of a list of decimal digit characters. -/
def digitsToNat (cs : List Char) : Nat :=
  cs.foldl (fun n c => 10 * n + (c.toNat - 48)) 0

/-- Mantissa part of Python `float(str)` over characters: an optionally
signed decimal literal `digits`, `digits.digits`, `digits.` or `.digits`,
returned as an exact numerator/denominator pair (`digits.digits` with `k`
fraction digits denotes `num / 10^k`). -/
def pyFloatMantissa (cs : List Char) : Option (Int × Nat) :=
  let (neg, body) : Bool × List Char :=
    match cs with
    | '+' :: rest => (false, rest)
    | '-' :: rest => (true, rest)
    | rest => (false, rest)
  let ip := body.takeWhile (fun c => c ≠ '.')
  let n : Int := digitsToNat (ip.append (body.drop (ip.length + 1)))
  let num : Int := if neg then -n else n
  match body.drop ip.length with
  | [] =>
      if ip ≠ [] ∧ ip.all Char.isDigit then some (num, 1) else none
  | '.' :: fp =>
      if ip ++ fp ≠ [] ∧ ip.all Char.isDigit ∧ fp.all Char.isDigit then
        some (num, 10 ^ fp.length)
      else none
  | _ => none

/-- Optionally signed decimal integer (the exponent of a Python float
literal). -/
def pySignedInt (cs : List Char) : Option Int :=
  let (sgn, body) : Int × List Char :=
    match cs with
    | '+' :: rest => (1, rest)
    | '-' :: rest => (-1, rest)
    | rest => (1, rest)
  if body ≠ [] ∧ body.all Char.isDigit then some (sgn * digitsToNat body)
  else none

/-- Strip leading and trailing whitespace from a character list (Python
`float` ignores surrounding whitespace). -/
def trimChars (cs : List Char) : List Char :=
  ((cs.dropWhile Char.isWhitespace).reverse.dropWhile Char.isWhitespace).reverse

/-- Model of Python `float(value)` on the finite decimal subset: optional
surrounding whitespace, optional sign, decimal mantissa with optional
fraction, optional `e`/`E` exponent.  (The special literals `inf`/`nan`
and underscore separators are outside the modelled subset; no query in the
verified properties uses them.)  `none` models the `ValueError` that
`float` raises on a non-numeric string. -/
def pyFloat (s : String) : Option Rat :=
  let cs := trimChars s.toList
  let m := cs.takeWhile (fun c => c ≠ 'e' ∧ c ≠ 'E')
  match cs.drop m.length with
  | [] => do
      let (num, den) ← pyFloatMantissa m
      some (Rat.divInt num den)
  | _ :: ex => do
      let (num, den) ← pyFloatMantissa m
      let n ← pySignedInt ex
      if 0 ≤ n then some (Rat.divInt (num * 10 ^ n.toNat) den)
      else some (Rat.divInt num (den * 10 ^ (-n).toNat))

/-- Two decimal digit characters as a number. -/
def parse2 (a b : Char) : Option Nat :=
  if a.isDigit ∧ b.isDigit then some ((a.toNat - 48) * 10 + (b.toNat - 48))
  else none

/-- Calendar-date part `YYYY-MM-DD` of `datetime.fromisoformat`, with the
range checks `datetime` performs (`MINYEAR <= year`, `1 <= month <= 12`,
`1 <= day <= days_in_month`). -/
def isoDate (y1 y2 y3 y4 m1 m2 d1 d2 : Char) : Option (Int × Int × Int) := do
  guard (y1.isDigit ∧ y2.isDigit ∧ y3.isDigit ∧ y4.isDigit)
  let y : Int := digitsToNat [y1, y2, y3, y4]
  let mo ← parse2 m1 m2
  let d ← parse2 d1 d2
  guard (1 ≤ y)
  guard (1 ≤ mo ∧ mo ≤ 12)
  guard (1 ≤ d ∧ (d : Int) ≤ daysInMonth y mo)
  some (y, mo, d)

/-- Time-of-day part `HH:MM:SS` with `datetime` range checks. -/
def isoTime (h1 h2 n1 n2 s1 s2 : Char) : Option Int := do
  let h ← parse2 h1 h2
  let mi ← parse2 n1 n2
  let s ← parse2 s1 s2
  guard (h ≤ 23 ∧ mi ≤ 59 ∧ s ≤ 59)
  some ((h : Int) * 3600 + mi * 60 + s)

/-- Model of `datetime.fromisoformat(value).timestamp()` (under UTC) on
the subset `YYYY-MM-DD`, `YYYY-MM-DD*HH:MM` and `YYYY-MM-DD*HH:MM:SS`
with separator `T` or space (fractional seconds and timezone offsets are
outside the modelled subset; no query in the verified properties uses
them).  `none` models the `ValueError` raised on a non-ISO string. -/
def fromIso (s : String) : Option Int :=
  match s.toList with
  | [a, b, c, d, '-', e, f, '-', g, h] => do
      let (y, mo, dd) ← isoDate a b c d e f g h
      some (datetimeTimestamp y mo dd)
  | [a, b, c, d, '-', e, f, '-', g, h, sep, i, j, ':', k, l] => do
      guard (sep = 'T' ∨ sep = ' ')
      let (y, mo, dd) ← isoDate a b c d e f g h
      let t ← isoTime i j k l '0' '0'
      some (datetimeTimestamp y mo dd + t)
  | [a, b, c, d, '-', e, f, '-', g, h, sep, i, j, ':', k, l, ':', m, n] => do
      guard (sep = 'T' ∨ sep = ' ')
      let (y, mo, dd) ← isoDate a b c d e f g h
      let t ← isoTime i j k l m n
      some (datetimeTimestamp y mo dd + t)
  | _ => none

/-- Lookup of `Param(param)` in `validate_param` (fdsn.py): resolve a
string against the enum values, i.e. the verbose aliases. -/
def paramFromVerbose (s : String) : Option Param :=
  if s = "minlatitude" then some .minlat
  else if s = "maxlatitude" then some .maxlat
  else if s = "minlongitude" then some .minlon
  else if s = "maxlongitude" then some .maxlon
  else if s = "minmagnitude" then some .minmag
  else if s = "maxmagnitude" then some .maxmag
  else if s = "mindepth" then some .mindepth
  else if s = "maxdepth" then some .maxdepth
  else if s = "magnitudetype" then some .magtype
  else if s = "starttime" then some .start
  else if s = "endtime" then some .end_
  else if s = "orderby" then some .orderby
  else if s = "format" then some .format
  else none

/-- Lookup of `Param[param]` in `validate_param` (fdsn.py): resolve a
string against the enum member names, i.e. the short aliases. -/
def paramFromShort (s : String) : Option Param :=
  if s = "minlat" then some .minlat
  else if s = "maxlat" then some .maxlat
  else if s = "minlon" then some .minlon
  else if s = "maxlon" then some .maxlon
  else if s = "minmag" then some .minmag
  else if s = "maxmag" then some .maxmag
  else if s = "mindepth" then some .mindepth
  else if s = "maxdepth" then some .maxdepth
  else if s = "magtype" then some .magtype
  else if s = "start" then some .start
  else if s = "end" then some .end_
  else if s = "orderby" then some .orderby
  else if s = "format" then some .format
  else none

/-- The two kinds of `ValueError` raised by `validate_param` (fdsn.py):
an unresolvable parameter name, or a value that cannot be cast for its
(resolved) parameter; the offending raw strings are carried in the error
(they appear in the Python error messages). -/
inductive VError where
  | invalidParameter (name : String)
  | invalidValue (name : String) (raw : String)
deriving Repr, DecidableEq

/-- `validate_param` (fdsn.py): resolve the parameter name first against
the verbose aliases (`Param(param)`), then against the short aliases
(`Param[param]`), failing with `invalidParameter` if neither matches;
then cast the raw value per parameter: ISO datetime → timestamp for
`start`/`end`, plain string for `magtype`, one of the four sort literals
for `orderby`, one of `text`/`xml` for `format`, and `float(value)` for
every remaining (numeric-bound) parameter; a failed cast is
`invalidValue`. -/
def validate_param (param : String) (value : String) :
    Except VError (Param × PValue) :=
  match (paramFromVerbose param).orElse (fun _ => paramFromShort param) with
  | none => .error (.invalidParameter param)
  | some col =>
    if col = .start ∨ col = .end_ then
      match fromIso value with
      | some t => .ok (col, .time t)
      | none => .error (.invalidValue param value)
    else if col = .magtype then .ok (col, .str value)
    else if col = .orderby then
      if value = "time" then .ok (col, .sort .time false)
      else if value = "time-asc" then .ok (col, .sort .time true)
      else if value = "magnitude" then .ok (col, .sort .mag false)
      else if value = "magnitude-asc" then .ok (col, .sort .mag true)
      else .error (.invalidValue param value)
    else if col = .format then
      if value = "text" ∨ value = "xml" then .ok (col, .str value)
      else .error (.invalidValue param value)
    else
      match pyFloat value with
      | some q => .ok (col, .num q)
      | none => .error (.invalidValue param value)

/-- Decidable equality for `Except`, used to evaluate `validate_param`
results on concrete inputs. -/
instance {ε α : Type} [DecidableEq ε] [DecidableEq α] :
    DecidableEq (Except ε α) := fun x y =>
  match x, y with
  | .ok a, .ok b =>
      if h : a = b then isTrue (by rw [h])
      else isFalse (by intro hc; cases hc; exact h rfl)
  | .ok _, .error _ => isFalse (by intro hc; cases hc)
  | .error _, .ok _ => isFalse (by intro hc; cases hc)
  | .error a, .error b =>
      if h : a = b then isTrue (by rw [h])
      else isFalse (by intro hc; cases hc; exact h rfl)

/-- Hinnant civil-from-days algorithm over floor division: the calendar
date `(y, m, d)` of the day `z0` days after 1970-01-01 (the inverse of the
day count behind `datetimeTimestamp`). -/
def civilFromDays (z0 : Int) : Int × Int × Int :=
  let z := z0 + 719468
  let era := z / 146097
  let doe := z - era * 146097
  let yoe := (doe - doe / 1460 + doe / 36524 - doe / 146096) / 365
  let y := yoe + era * 400
  let doy := doe - (365 * yoe + yoe / 4 - yoe / 100)
  let mp := (5 * doy + 2) / 153
  let d := doy - (153 * mp + 2) / 5 + 1
  let m := mp + (if mp < 10 then 3 else -9)
  (y + (if m ≤ 2 then 1 else 0), m, d)

/-- Zero-padded two-digit rendering of a day/month/hour/minute/second
component. -/
def pad2 (n : Int) : String :=
  if n < 10 then "0" ++ toString n else toString n

/-- Zero-padded four-digit rendering of a year. -/
def pad4 (n : Int) : String :=
  if n < 10 then "000" ++ toString n
  else if n < 100 then "00" ++ toString n
  else if n < 1000 then "0" ++ toString n
  else toString n

/-- Model of `datetime.fromtimestamp(timestamp).isoformat()` (under UTC,
whole seconds): the `YYYY-MM-DDTHH:MM:SS` rendering of a Unix
timestamp. -/
def isoOfTimestamp (ts : Int) : String :=
  let days := ts / 86400
  let secs := ts - days * 86400
  let ymd := civilFromDays days
  let h := secs / 3600
  let mi := (secs % 3600) / 60
  let s := secs % 60
  pad4 ymd.1 ++ "-" ++ pad2 ymd.2.1 ++ "-" ++ pad2 ymd.2.2 ++ "T" ++
    pad2 h ++ ":" ++ pad2 mi ++ ":" ++ pad2 s

/-- Rendering of a float cell in the delimited-text output.  The exact
Python float `repr` is not modelled; any newline-free, pipe-free rendering
is observationally equivalent for the verified properties, which never
inspect the characters of numeric cells. -/
def ratRepr (q : Rat) : String :=
  if q.den = 1 then toString q.num ++ ".0"
  else toString q.num ++ "/" ++ toString q.den

/-- Rendering of a nullable float cell: NaN cells render as the empty
string (`na_repr=''` in `to_text`, fdsn.py). -/
def optRatRepr : Option Rat → String
  | none => ""
  | some q => ratRepr q

/-- The fixed header line of the FDSN text serializer (`to_text`,
fdsn.py), written byte for byte before the event rows, leading `#`
included. -/
def fdsn_text_header : String :=
  "#EventID|Time|Latitude|Longitude|Depth/km|Author|Catalog|Contributor|ContributorID|MagType|Magnitude|MagAuthor|EventLocationName|EventType"

/-- The 14 cells of one event row of `to_text` (fdsn.py), in the order of
the f-string
`{ev_id}|{dtime}|{lat}|{lon}|{depth}||EMEC-2021|{c}|{cid}|{magtype}|{mag}|||earthquake`:
`Contributor` is `ISC` and `ContributorID` the id only when `isc_id > 0`
(otherwise empty), `Author`, `MagAuthor` and `EventLocationName` are
always empty, `Catalog` is always `EMEC-2021`, and the time cell is empty
when the timestamp is falsy (`not timestamp`), i.e. exactly 0. -/
def text_row_fields (e : Event) : List String :=
  let c := if 0 < e.isc_id then "ISC" else ""
  let cid := if 0 < e.isc_id then toString e.isc_id else ""
  let dtime := if e.time = 0 then "" else isoOfTimestamp e.time
  [toString e.event_id, dtime, ratRepr e.lat, ratRepr e.lon,
   optRatRepr e.depth, "", "EMEC-2021", c, cid, e.magtype,
   optRatRepr e.mag, "", "", "earthquake"]

/-- One event row of `to_text` (fdsn.py): the 14 cells pipe-joined. -/
def text_row (e : Event) : String :=
  String.intercalate "|" (text_row_fields e)

/-- The lines of the `to_text` (fdsn.py) output: the fixed header line
followed by one row line per event.  `to_text` writes the header first
and then `'\n' + row` per event, so its byte stream is exactly these
lines joined by a newline (no cell contains a newline). -/
def to_text_lines (catalog : List Event) : List String :=
  fdsn_text_header :: catalog.map text_row

/-- The full `to_text` (fdsn.py) byte stream as a string. -/
def to_text (catalog : List Event) : String :=
  String.intercalate "\x0A" (to_text_lines catalog)

/-- Model of `rid` (fdsn.py): the deterministic QuakeML resource
identifier `smi:org.gfz-potsdam.de/EMEC-2021[/resid]` that obspy
`ResourceIdentifier(...).get_quakeml_id('org.gfz-potsdam.de')` produces
for these plain ids. -/
def rid (resid : Option String) : String :=
  match resid with
  | none => "smi:org.gfz-potsdam.de/EMEC-2021"
  | some r => "smi:org.gfz-potsdam.de/EMEC-2021/" ++ r

/-- One obspy `Origin` element as built by `to_xml` (fdsn.py). -/
structure XmlOrigin where
  latitude : Option Rat
  longitude : Option Rat
  depth : Option Rat
  time : Option Int
  resource_id : String
deriving Repr, DecidableEq, Inhabited

/-- One obspy `Magnitude` element as built by `to_xml` (fdsn.py). -/
structure XmlMagnitude where
  mag : Option Rat
  magnitude_type : String
  resource_id : String
deriving Repr, DecidableEq, Inhabited

/-- One obspy `Event` element as built by `to_xml` (fdsn.py):
its resource id, its origin list, its magnitude list, and the optional
ISC attribution (`CreationInfo(agency_id, agency_uri)`). -/
structure XmlEvent where
  resource_id : String
  origins : List XmlOrigin
  magnitudes : List XmlMagnitude
  creation_info : Option (String × String)
deriving Repr, DecidableEq, Inhabited

/-- `to_xml` (fdsn.py): one `Event` element per catalog row, each with
exactly one `Origin` (latitude, longitude, depth, time) and exactly two
`Magnitude` elements — the canonical magnitude and the original
magnitude, built unconditionally — plus the ISC `CreationInfo`
attribution exactly when `isc_id > 0`.  (`na_repr=None`: NaN numeric
cells become `none`; the canonical timestamp column is never NaN, so
`time` is always set.) -/
def to_xml (catalog : List Event) : List XmlEvent :=
  catalog.map (fun e =>
    { resource_id := rid (some (toString e.event_id))
      origins := [{ latitude := some e.lat
                    longitude := some e.lon
                    depth := e.depth
                    time := some e.time
                    resource_id := rid (some ("origin/" ++ toString e.event_id)) }]
      magnitudes :=
        [{ mag := e.mag
           magnitude_type := e.magtype
           resource_id := rid (some ("magnitude/" ++ toString e.event_id)) },
         { mag := e.originalmag
           magnitude_type := e.originalmagtype
           resource_id :=
             rid (some ("original-magnitude/" ++ toString e.event_id)) }]
      creation_info :=
        if (0 : Int) < e.isc_id then
          some ("ISC",
            "smi:www.isc.ac.uk/fdsnws/event/1/query?eventid=" ++
              toString e.isc_id)
        else none })

/-- The distinct query-parameter names of a request in first-occurrence
order: iterating a Werkzeug `MultiDict` (`for prm in request.args` in
`get_events`, flaskapp.py) yields each distinct name once, in insertion
(first-occurrence) order. -/
def firstOccurrenceKeys (ps : List (String × String)) : List String :=
  ps.foldl (fun acc p => if p.1 ∈ acc then acc else acc ++ [p.1]) []

/-- The value `params.getlist(prm)[-1]` picked by `get_events`
(flaskapp.py) for a parameter name: the last raw value supplied for that
name (the default is never used, since the name is always taken from the
request itself). -/
def lastValue (ps : List (String × String)) (k : String) : String :=
  (((ps.filter (fun p => p.1 = k)).map Prod.snd).getLast?).getD ""

/-- The catalog view computed by the parameter loop of `get_events`
(flaskapp.py): fold over the distinct parameter names in first-occurrence
order, validating each name with its last supplied raw value; a
validation failure aborts the request (HTTP 400); `format=text` only
switches the serializer (`continue`), every other validated pair is
applied to the working view via `apply_query_param`. -/
def get_events_view (catalog : List Event) (ps : List (String × String)) :
    Except VError (List Event) :=
  (firstOccurrenceKeys ps).foldlM
    (fun acc k =>
      match validate_param k (lastValue ps k) with
      | .error err => .error err
      | .ok (p, v) =>
          if p = .format ∧ v = .str "text" then .ok acc
          else .ok (apply_query_param acc p v))
    catalog

/-- The multi-parameter folding as the specification words it: apply every
`(name, rawValue)` occurrence of the request, in the order received, each
occurrence further narrowing the view.  This definition follows the
specification text and exists to be compared against `get_events_view`,
which embeds the code. -/
def get_events_view_cumulative (catalog : List Event)
    (ps : List (String × String)) : Except VError (List Event) :=
  ps.foldlM
    (fun acc pr =>
      match validate_param pr.1 pr.2 with
      | .error err => .error err
      | .ok (p, v) =>
          if p = .format ∧ v = .str "text" then .ok acc
          else .ok (apply_query_param acc p v))
    catalog

/-- The last-wins collapse of a request's parameter sequence: one
`(name, lastValue)` pair per distinct name, in first-occurrence order. -/
def collapseLastWins (ps : List (String × String)) : List (String × String) :=
  (firstOccurrenceKeys ps).map (fun k => (k, lastValue ps k))

/-- Folding a list of validated query parameters over a catalog, as the
parameter loop of `get_events` (flaskapp.py) does after validation. -/
def apply_params (catalog : List Event) (ps : List (Param × PValue)) :
    List Event :=
  ps.foldl (fun acc p => apply_query_param acc p.1 p.2) catalog

/-- Sample event: no ISC cross reference, non-null magnitude and depth. -/
def evA : Event :=
  { event_id := 1, time := 100, lat := 10, lon := 20, mag := some 5,
    magtype := "Mw", originalmag := some 4, originalmagtype := "ML",
    depth := some 10, isc_id := 0 }

/-- Sample event: ISC id 42, null magnitude and depth, distinct time. -/
def evB : Event :=
  { event_id := 2, time := 50, lat := -10, lon := 30, mag := none,
    magtype := "Mw", originalmag := none, originalmagtype := "",
    depth := none, isc_id := 42 }

/-- Every branch of `apply_query_param` returns a subset (filter) or a
permutation (sort) of its input, so membership is never introduced. -/
theorem mem_of_mem_apply_query_param {catalog : List Event} {p : Param}
    {v : PValue} {e : Event} (h : e ∈ apply_query_param catalog p v) :
    e ∈ catalog := by
  cases p <;> cases v <;>
    first
      | exact h
      | exact (List.mem_filter.mp h).1
      | (rcases List.mem_filterMap.mp h with ⟨i, _, hi⟩
         exact List.getElem?_mem hi)

/-- Membership after folding a parameter list implies membership in the
initial catalog. -/
theorem mem_of_mem_apply_params {catalog : List Event}
    {ps : List (Param × PValue)} {e : Event}
    (h : e ∈ apply_params catalog ps) : e ∈ catalog := by
  induction ps generalizing catalog with
  | nil => exact h
  | cons p rest ih => exact mem_of_mem_apply_query_param (ih h)

/-- C1.  Filter bound semantics are asymmetric: `start`/`end` keep exactly
the events with `timestamp >= v` / `<= v`, the latitude/longitude bounds
are inclusive (`>=` / `<=`), while the magnitude and depth bounds are
strict (`magnitude > v` for `minmag`, `magnitude < v` for `maxmag`,
`depth > v` for `mindepth`, `depth < v` for `maxdepth`); a null magnitude
or depth satisfies neither strict bound. -/
theorem filter_bound_semantics :
    ∀ (catalog : List Event) (e : Event),
      (∀ t : Int,
        (e ∈ apply_query_param catalog .start (.time t) ↔
          e ∈ catalog ∧ t ≤ e.time)
        ∧ (e ∈ apply_query_param catalog .end_ (.time t) ↔
          e ∈ catalog ∧ e.time ≤ t))
      ∧ (∀ v : Rat,
        (e ∈ apply_query_param catalog .minlat (.num v) ↔
          e ∈ catalog ∧ v ≤ e.lat)
        ∧ (e ∈ apply_query_param catalog .maxlat (.num v) ↔
          e ∈ catalog ∧ e.lat ≤ v)
        ∧ (e ∈ apply_query_param catalog .minlon (.num v) ↔
          e ∈ catalog ∧ v ≤ e.lon)
        ∧ (e ∈ apply_query_param catalog .maxlon (.num v) ↔
          e ∈ catalog ∧ e.lon ≤ v)
        ∧ (e ∈ apply_query_param catalog .minmag (.num v) ↔
          e ∈ catalog ∧ ∃ m, e.mag = some m ∧ v < m)
        ∧ (e ∈ apply_query_param catalog .maxmag (.num v) ↔
          e ∈ catalog ∧ ∃ m, e.mag = some m ∧ m < v)
        ∧ (e ∈ apply_query_param catalog .mindepth (.num v) ↔
          e ∈ catalog ∧ ∃ d, e.depth = some d ∧ v < d)
        ∧ (e ∈ apply_query_param catalog .maxdepth (.num v) ↔
          e ∈ catalog ∧ ∃ d, e.depth = some d ∧ d < v)) := by
  intro catalog e
  constructor
  · intro t
    constructor <;>
      simp [apply_query_param, List.mem_filter]
  · intro v
    refine ⟨?_, ?_, ?_, ?_, ?_, ?_, ?_, ?_⟩ <;>
      simp only [apply_query_param, List.mem_filter]
    · simp
    · simp
    · simp
    · simp
    · cases h : e.mag <;> simp [h]
    · cases h : e.mag <;> simp [h]
    · cases h : e.depth <;> simp [h]
    · cases h : e.depth <;> simp [h]

/-- C8.  Era filter invariant: every canonical event comes from a raw row
with `year >= 1900` (so no event has a source year before 1900), and every
raw row with `year >= 1900` is retained by the normalization. -/
theorem era_filter_semantics :
    ∀ src : List RawRow,
      (∀ e ∈ process_source_catalog src,
         ∃ r ∈ src, 1900 ≤ r.year ∧ e = eventOfRow r)
      ∧ (∀ r ∈ src, 1900 ≤ r.year →
         eventOfRow r ∈ process_source_catalog src) := by
  intro src
  constructor
  · intro e he
    rcases List.mem_map.mp he with ⟨r, hr, rfl⟩
    rcases List.mem_filter.mp hr with ⟨hmem, hyear⟩
    exact ⟨r, hmem, by simpa using hyear, rfl⟩
  · intro r hr hyear
    exact List.mem_map_of_mem _ (List.mem_filter.mpr ⟨hr, by simpa using hyear⟩)

/-- Sample raw row from 1850, discarded by the era filter. -/
def rowOld : RawRow :=
  { event_id := 10, year := 1850, month := some 5, day := some 2,
    hour := none, minute := none, second := none, latitude := 1,
    longitude := 2, mw := some 6, originalmag := some 6,
    originalmagtype := some "Ms", depth := none, isc_id := none }

/-- Sample raw row from 1950, retained by the era filter. -/
def rowNew : RawRow :=
  { event_id := 11, year := 1950, month := some 3, day := some 4,
    hour := some 1, minute := some 2, second := some 3, latitude := 5,
    longitude := 6, mw := some 7, originalmag := some 7,
    originalmagtype := some "Ms", depth := some 8, isc_id := some 9 }

/-- Witness for C8 at a concrete two-row source. -/
theorem era_filter_semantics_witness :
    eventOfRow rowNew ∈ process_source_catalog [rowOld, rowNew] :=
  (era_filter_semantics [rowOld, rowNew]).2 rowNew (by decide) (by decide)

/-- A member of the `minmag` or `maxmag` view has a non-null magnitude. -/
theorem mag_ne_none_of_mem_magbound {catalog : List Event} {v : Rat}
    {e : Event}
    (h : e ∈ apply_query_param catalog .minmag (.num v)
       ∨ e ∈ apply_query_param catalog .maxmag (.num v)) :
    e.mag ≠ none := by
  rcases h with h | h <;>
    · have h2 := (List.mem_filter.mp h).2
      cases hm : e.mag <;> simp [hm] at h2 ⊢

/-- A member of the `mindepth` or `maxdepth` view has a non-null depth. -/
theorem depth_ne_none_of_mem_depthbound {catalog : List Event} {v : Rat}
    {e : Event}
    (h : e ∈ apply_query_param catalog .mindepth (.num v)
       ∨ e ∈ apply_query_param catalog .maxdepth (.num v)) :
    e.depth ≠ none := by
  rcases h with h | h <;>
    · have h2 := (List.mem_filter.mp h).2
      cases hm : e.depth <;> simp [hm] at h2 ⊢

/-- If the validated parameter list contains a magnitude bound, every
event of the folded view has a non-null magnitude. -/
theorem mag_ne_none_of_apply_params {catalog : List Event}
    {ps : List (Param × PValue)} {e : Event}
    (hmem : e ∈ apply_params catalog ps)
    (hv : ∃ v : Rat, (Param.minmag, PValue.num v) ∈ ps
        ∨ (Param.maxmag, PValue.num v) ∈ ps) :
    e.mag ≠ none := by
  induction ps generalizing catalog with
  | nil => rcases hv with ⟨v, hv | hv⟩ <;> simp at hv
  | cons p rest ih =>
    have hmem' : e ∈ apply_params (apply_query_param catalog p.1 p.2) rest :=
      hmem
    rcases hv with ⟨v, hv | hv⟩
    · rcases List.mem_cons.mp hv with heq | hrest
      · subst heq
        exact mag_ne_none_of_mem_magbound
          (Or.inl (mem_of_mem_apply_params hmem'))
      · exact ih hmem' ⟨v, Or.inl hrest⟩
    · rcases List.mem_cons.mp hv with heq | hrest
      · subst heq
        exact mag_ne_none_of_mem_magbound
          (Or.inr (mem_of_mem_apply_params hmem'))
      · exact ih hmem' ⟨v, Or.inr hrest⟩

/-- If the validated parameter list contains a depth bound, every event of
the folded view has a non-null depth. -/
theorem depth_ne_none_of_apply_params {catalog : List Event}
    {ps : List (Param × PValue)} {e : Event}
    (hmem : e ∈ apply_params catalog ps)
    (hv : ∃ v : Rat, (Param.mindepth, PValue.num v) ∈ ps
        ∨ (Param.maxdepth, PValue.num v) ∈ ps) :
    e.depth ≠ none := by
  induction ps generalizing catalog with
  | nil => rcases hv with ⟨v, hv | hv⟩ <;> simp at hv
  | cons p rest ih =>
    have hmem' : e ∈ apply_params (apply_query_param catalog p.1 p.2) rest :=
      hmem
    rcases hv with ⟨v, hv | hv⟩
    · rcases List.mem_cons.mp hv with heq | hrest
      · subst heq
        exact depth_ne_none_of_mem_depthbound
          (Or.inl (mem_of_mem_apply_params hmem'))
      · exact ih hmem' ⟨v, Or.inl hrest⟩
    · rcases List.mem_cons.mp hv with heq | hrest
      · subst heq
        exact depth_ne_none_of_mem_depthbound
          (Or.inr (mem_of_mem_apply_params hmem'))
      · exact ih hmem' ⟨v, Or.inr hrest⟩

/-- C10.  Null-valued fields never satisfy a bound filter in either
direction: a null-magnitude event is excluded by `minmag` and `maxmag`, a
null-depth event by `mindepth` and `maxdepth`; consequently a folded query
that contains a magnitude (depth) bound never returns a null-magnitude
(null-depth) event. -/
theorem null_never_satisfies_bounds :
    (∀ (catalog : List Event) (v : Rat) (e : Event),
       (e.mag = none →
          e ∉ apply_query_param catalog .minmag (.num v)
          ∧ e ∉ apply_query_param catalog .maxmag (.num v))
       ∧ (e.depth = none →
          e ∉ apply_query_param catalog .mindepth (.num v)
          ∧ e ∉ apply_query_param catalog .maxdepth (.num v)))
    ∧ (∀ (catalog : List Event) (ps : List (Param × PValue)) (e : Event),
       e ∈ apply_params catalog ps →
       ((∃ v : Rat, (Param.minmag, PValue.num v) ∈ ps
           ∨ (Param.maxmag, PValue.num v) ∈ ps) → e.mag ≠ none)
       ∧ ((∃ v : Rat, (Param.mindepth, PValue.num v) ∈ ps
           ∨ (Param.maxdepth, PValue.num v) ∈ ps) → e.depth ≠ none)) := by
  constructor
  · intro catalog v e
    constructor
    · intro hnone
      refine ⟨fun hmem => ?_, fun hmem => ?_⟩
      · exact mag_ne_none_of_mem_magbound (Or.inl hmem) hnone
      · exact mag_ne_none_of_mem_magbound (Or.inr hmem) hnone
    · intro hnone
      refine ⟨fun hmem => ?_, fun hmem => ?_⟩
      · exact depth_ne_none_of_mem_depthbound (Or.inl hmem) hnone
      · exact depth_ne_none_of_mem_depthbound (Or.inr hmem) hnone
  · intro catalog ps e hmem
    exact ⟨fun hv => mag_ne_none_of_apply_params hmem hv,
           fun hv => depth_ne_none_of_apply_params hmem hv⟩

/-- Witness for C10: the null-magnitude sample event is excluded by a
concrete `minmag` filter, and a concrete folded query with a magnitude
bound only returns events with non-null magnitude. -/
theorem null_never_satisfies_bounds_witness :
    evB.mag = none
    ∧ evB ∉ apply_query_param [evA, evB] .minmag (.num 1)
    ∧ evA.mag ≠ none :=
  ⟨rfl,
   ((null_never_satisfies_bounds.1 [evA, evB] 1 evB).1 rfl).1,
   (null_never_satisfies_bounds.2 [evA, evB]
       [(Param.minmag, PValue.num 1)] evA (by decide)).1 ⟨1, Or.inl (by decide)⟩⟩

/-- Counterexample to C3.  `get_events` (flaskapp.py) iterates the distinct
parameter names of the request `MultiDict` and takes
`params.getlist(prm)[-1]`, the last raw value, for each name; repeated
filter parameters therefore collapse last-wins instead of applying
cumulatively.  On the one-event catalog `[evA]` (magnitude 5) and the
request `minmag=6&minmag=4`, the code keeps the event (only `minmag=4` is
applied), while the claimed cumulative semantics
(`get_events_view_cumulative`) would also apply `minmag=6` and drop it. -/
theorem get_events_last_wins_counterexample :
    get_events_view [evA] [("minmag", "6"), ("minmag", "4")] = .ok [evA]
    ∧ get_events_view_cumulative [evA] [("minmag", "6"), ("minmag", "4")]
        = .ok []
    ∧ get_events_view [evA] [("minmag", "6"), ("minmag", "4")]
        ≠ get_events_view_cumulative [evA]
            [("minmag", "6"), ("minmag", "4")] := by
  refine ⟨by decide, by decide, by decide⟩

/-- C3 (amended).  The parameter loop of `get_events` behaves as the
cumulative fold applied to the last-wins collapse of the request: one
application per distinct parameter name, in first-occurrence order, using
the last raw value supplied for that name; earlier occurrences of a
repeated name are ignored. -/
theorem get_events_last_wins (catalog : List Event)
    (ps : List (String × String)) :
    get_events_view catalog ps
      = get_events_view_cumulative catalog (collapseLastWins ps) := by
  unfold get_events_view get_events_view_cumulative collapseLastWins
  induction firstOccurrenceKeys ps generalizing catalog with
  | nil => rfl
  | cons k rest ih =>
    simp only [List.map_cons, List.foldlM_cons]
    cases validate_param k (lastValue ps k) with
    | error err => rfl
    | ok pv =>
      cases pv with
      | mk p v =>
        by_cases h : p = .format ∧ v = .str "text" <;>
          simp [h, ih]

/-- Counterexample to C5.  In `to_text` (fdsn.py) the `Catalog` column is
the literal `EMEC-2021` for every row — only `Contributor` and
`ContributorID` are conditional on `isc_id > 0` — so for an event with
`external_catalog_id = 0` (sample `evA`) the three columns are not all
empty: the `Catalog` cell (index 6) still holds `EMEC-2021`. -/
theorem text_catalog_column_counterexample :
    evA.isc_id = 0
    ∧ (text_row_fields evA).getD 6 "" = "EMEC-2021"
    ∧ (text_row_fields evA).getD 7 "" = ""
    ∧ (text_row_fields evA).getD 8 "" = ""
    ∧ ("EMEC-2021" : String) ≠ "" := by
  refine ⟨rfl, rfl, by decide, by decide, by decide⟩

/-- C5 (amended).  In delimited-text output the `Contributor` and
`ContributorID` columns are populated (with `ISC` and the
`external_catalog_id`) iff `external_catalog_id > 0` and are empty
otherwise, while the `Catalog` column always holds the fixed label
`EMEC-2021`, regardless of `external_catalog_id`. -/
theorem text_catalog_contributor_columns (e : Event) :
    (text_row_fields e).getD 6 "" = "EMEC-2021"
    ∧ (0 < e.isc_id →
        (text_row_fields e).getD 7 "" = "ISC"
        ∧ (text_row_fields e).getD 8 "" = toString e.isc_id)
    ∧ (¬ 0 < e.isc_id →
        (text_row_fields e).getD 7 "" = ""
        ∧ (text_row_fields e).getD 8 "" = "") := by
  refine ⟨rfl, fun h => ?_, fun h => ?_⟩ <;>
    simp [text_row_fields, h]

/-- Witness for C5 (amended) at the two sample events. -/
theorem text_catalog_contributor_columns_witness :
    (text_row_fields evB).getD 7 "" = "ISC"
    ∧ (text_row_fields evA).getD 7 "" = "" :=
  ⟨((text_catalog_contributor_columns evB).2.1 (by decide)).1,
   ((text_catalog_contributor_columns evA).2.2 (by decide)).1⟩

/-- Counterexample to C7.  The header line `to_text` (fdsn.py) writes
starts with a `#` character (`#EventID|...`), so the first output line is
not the claimed bare `EventID|...` string. -/
theorem text_header_counterexample :
    to_text_lines [] = [fdsn_text_header]
    ∧ fdsn_text_header ≠
      "EventID|Time|Latitude|Longitude|Depth/km|Author|Catalog|Contributor|ContributorID|MagType|Magnitude|MagAuthor|EventLocationName|EventType" := by
  exact ⟨rfl, by decide⟩

/-- C7 (amended).  Rendering N events to delimited text yields exactly
N+1 lines: the fixed header line `#EventID|...` (leading `#` included)
followed by one line per event, each line the 14 cells of
`text_row_fields` pipe-joined in that order. -/
theorem text_lines_shape (catalog : List Event) :
    (to_text_lines catalog).length = catalog.length + 1
    ∧ (to_text_lines catalog).headD "" = fdsn_text_header
    ∧ (∀ i, i < catalog.length →
        (to_text_lines catalog).getD (i + 1) ""
          = String.intercalate "|" (text_row_fields (catalog.getD i default))) := by
  refine ⟨by simp [to_text_lines], rfl, ?_⟩
  intro i hi
  simp only [to_text_lines, List.getD_cons_succ]
  rw [List.getD_eq_getElem?_getD, List.getElem?_map,
    List.getElem?_eq_getElem hi]
  rw [List.getD_eq_getElem?_getD, List.getElem?_eq_getElem hi]
  rfl

/-- Witness for C7 (amended) at a one-event catalog. -/
theorem text_lines_shape_witness :
    (to_text_lines [evA]).getD 1 ""
      = String.intercalate "|" (text_row_fields evA) := by
  simpa using (text_lines_shape [evA]).2.2 0 (by decide)

/-- Sample event whose original magnitude coincides with the canonical one
(same value, same type label). -/
def evEq : Event :=
  { event_id := 3, time := 200, lat := 1, lon := 2, mag := some 6,
    magtype := "Mw", originalmag := some 6, originalmagtype := "Mw",
    depth := some 3, isc_id := 0 }

/-- Counterexample to C6.  `to_xml` (fdsn.py) appends both `Magnitude`
elements unconditionally, so even for an event whose original magnitude is
identical to the canonical one (hence not "meaningfully distinct" under
any reading) the event element carries two magnitude sub-elements, not
one. -/
theorem xml_two_magnitudes_counterexample :
    evEq.originalmag = evEq.mag
    ∧ evEq.originalmagtype = evEq.magtype
    ∧ ((to_xml [evEq]).map fun xe => xe.magnitudes.length) = [2] := by
  refine ⟨rfl, rfl, by decide⟩

/-- C6 (amended).  Every event element of the structured-markup output
contains exactly one origin sub-element and exactly two magnitude
sub-elements — the canonical magnitude and the original magnitude —
unconditionally, whether or not the two magnitudes are distinct. -/
theorem xml_origin_and_two_magnitudes (catalog : List Event)
    (xe : XmlEvent) (h : xe ∈ to_xml catalog) :
    xe.origins.length = 1 ∧ xe.magnitudes.length = 2 := by
  rcases List.mem_map.mp h with ⟨e, _, rfl⟩
  exact ⟨rfl, rfl⟩

/-- Witness for C6 (amended) at a one-event catalog. -/
theorem xml_origin_and_two_magnitudes_witness :
    ((to_xml [evA]).headD default).origins.length = 1
    ∧ ((to_xml [evA]).headD default).magnitudes.length = 2 :=
  xml_origin_and_two_magnitudes [evA] ((to_xml [evA]).headD default)
    (by decide)

/-- January timestamps are linear in the day: one more day is exactly
86400 more seconds (used for the `23:59:60` rollover of C2). -/
theorem datetimeTimestamp_jan (y d : Int) :
    datetimeTimestamp y 1 (d + 1) = datetimeTimestamp y 1 d + 86400 := by
  simp only [datetimeTimestamp, toOrdinal, daysBeforeMonth]
  norm_num
  ring

/-- C2.  Timestamp reconstruction: absent components default to 0, except
month and day, which become 1 when absent or literally 0; the timestamp is
midnight of the (fixed) calendar date plus
`totalSeconds = h*3600 + mi*60 + s`, with exact calendar rollover (the
epoch-seconds representation makes the addition exact); in particular a
row with `month=0, day=0, hour=23, minute=59, second=60` lands exactly on
midnight of January 2 of its year (Jan 1 00:00:00 + 86400 s). -/
theorem timestamp_reconstruction :
    (∀ r : RawRow,
      row_timestamp r =
        datetimeTimestamp r.year
          (if r.month.getD 0 = 0 then 1 else r.month.getD 0)
          (if r.day.getD 0 = 0 then 1 else r.day.getD 0)
        + (r.hour.getD 0 * 3600 + r.minute.getD 0 * 60 + r.second.getD 0))
    ∧ (∀ r : RawRow,
      r.month = none ∨ r.month = some 0 → r.day = none ∨ r.day = some 0 →
      r.hour = some 23 → r.minute = some 59 → r.second = some 60 →
      row_timestamp r = datetimeTimestamp r.year 1 2) := by
  constructor
  · intro r
    rfl
  · intro r hmo hd hh hmi hs
    have h1 : row_timestamp r = datetimeTimestamp r.year 1 1 + 86400 := by
      rcases hmo with hmo | hmo <;> rcases hd with hd | hd <;>
        simp [row_timestamp, hmo, hd, hh, hmi, hs]
    rw [h1]
    have h2 := datetimeTimestamp_jan r.year 1
    norm_num at h2
    omega

/-- Sample raw row exercising the `23:59:60` rollover with absent month
and day written as literal zeros. -/
def rowRoll : RawRow :=
  { event_id := 12, year := 2020, month := some 0, day := some 0,
    hour := some 23, minute := some 59, second := some 60, latitude := 0,
    longitude := 0, mw := some 5, originalmag := none,
    originalmagtype := none, depth := none, isc_id := none }

/-- Witness for C2: the rollover row of year 2020 normalizes to midnight
of 2020-01-02 (Unix timestamp 1577923200). -/
theorem timestamp_reconstruction_witness :
    row_timestamp rowRoll = datetimeTimestamp 2020 1 2
    ∧ datetimeTimestamp 2020 1 2 = 1577923200 :=
  ⟨timestamp_reconstruction.2 rowRoll (Or.inr rfl) (Or.inr rfl) rfl rfl rfl,
   by decide⟩


/-- Both alias lookups of `validate_param` resolve each parameter's short
alias to that parameter. -/
theorem resolve_short (p : Param) :
    (paramFromVerbose p.shortName).orElse
      (fun _ => paramFromShort p.shortName) = some p := by
  cases p <;> rfl

/-- Both alias lookups of `validate_param` resolve each parameter's
verbose alias to that parameter. -/
theorem resolve_verbose (p : Param) :
    (paramFromVerbose p.verboseName).orElse
      (fun _ => paramFromShort p.verboseName) = some p := by
  cases p <;> rfl

/-- A name that is no verbose alias is rejected by the value lookup. -/
theorem paramFromVerbose_eq_none {name : String}
    (h : ∀ p : Param, p.verboseName ≠ name) :
    paramFromVerbose name = none := by
  unfold paramFromVerbose
  rw [if_neg (fun hh : name = "minlatitude" => (h .minlat) hh.symm),
    if_neg (fun hh : name = "maxlatitude" => (h .maxlat) hh.symm),
    if_neg (fun hh : name = "minlongitude" => (h .minlon) hh.symm),
    if_neg (fun hh : name = "maxlongitude" => (h .maxlon) hh.symm),
    if_neg (fun hh : name = "minmagnitude" => (h .minmag) hh.symm),
    if_neg (fun hh : name = "maxmagnitude" => (h .maxmag) hh.symm),
    if_neg (fun hh : name = "mindepth" => (h .mindepth) hh.symm),
    if_neg (fun hh : name = "maxdepth" => (h .maxdepth) hh.symm),
    if_neg (fun hh : name = "magnitudetype" => (h .magtype) hh.symm),
    if_neg (fun hh : name = "starttime" => (h .start) hh.symm),
    if_neg (fun hh : name = "endtime" => (h .end_) hh.symm),
    if_neg (fun hh : name = "orderby" => (h .orderby) hh.symm),
    if_neg (fun hh : name = "format" => (h .format) hh.symm)]

/-- A name that is no short alias is rejected by the name lookup. -/
theorem paramFromShort_eq_none {name : String}
    (h : ∀ p : Param, p.shortName ≠ name) :
    paramFromShort name = none := by
  unfold paramFromShort
  rw [if_neg (fun hh : name = "minlat" => (h .minlat) hh.symm),
    if_neg (fun hh : name = "maxlat" => (h .maxlat) hh.symm),
    if_neg (fun hh : name = "minlon" => (h .minlon) hh.symm),
    if_neg (fun hh : name = "maxlon" => (h .maxlon) hh.symm),
    if_neg (fun hh : name = "minmag" => (h .minmag) hh.symm),
    if_neg (fun hh : name = "maxmag" => (h .maxmag) hh.symm),
    if_neg (fun hh : name = "mindepth" => (h .mindepth) hh.symm),
    if_neg (fun hh : name = "maxdepth" => (h .maxdepth) hh.symm),
    if_neg (fun hh : name = "magtype" => (h .magtype) hh.symm),
    if_neg (fun hh : name = "start" => (h .start) hh.symm),
    if_neg (fun hh : name = "end" => (h .end_) hh.symm),
    if_neg (fun hh : name = "orderby" => (h .orderby) hh.symm),
    if_neg (fun hh : name = "format" => (h .format) hh.symm)]

/-- Once the name is resolved, `validate_param` is exactly the per-param
value-casting cascade of its source. -/
theorem validate_param_resolved (p : Param) (name v : String)
    (h : (paramFromVerbose name).orElse
      (fun _ => paramFromShort name) = some p) :
    validate_param name v =
      if p = .start ∨ p = .end_ then
        match fromIso v with
        | some t => .ok (p, .time t)
        | none => .error (.invalidValue name v)
      else if p = .magtype then .ok (p, .str v)
      else if p = .orderby then
        (if v = "time" then .ok (p, .sort .time false)
         else if v = "time-asc" then .ok (p, .sort .time true)
         else if v = "magnitude" then .ok (p, .sort .mag false)
         else if v = "magnitude-asc" then .ok (p, .sort .mag true)
         else .error (.invalidValue name v))
      else if p = .format then
        (if v = "text" ∨ v = "xml" then .ok (p, .str v)
         else .error (.invalidValue name v))
      else
        match pyFloat v with
        | some q => .ok (p, .num q)
        | none => .error (.invalidValue name v) := by
  unfold validate_param
  rw [h]

/-- C9.  `validate_param` accepts either alias of a recognized parameter
and returns the canonical parameter with the value cast to its domain
(same result for both aliases); an unrecognized name fails with the
unknown-parameter error carrying the name; a recognized name with an
uncastable value — non-numeric where a float is expected, non-ISO datetime
for start/end, or a string outside the closed enumerations of `orderby`
and `format` — fails with the invalid-value error carrying the offending
raw value. -/
theorem validate_param_spec :
    (∀ (p : Param) (v : String),
       (∃ pv, validate_param p.shortName v = .ok (p, pv)
            ∧ validate_param p.verboseName v = .ok (p, pv))
       ∨ (validate_param p.shortName v
            = .error (.invalidValue p.shortName v)
          ∧ validate_param p.verboseName v
            = .error (.invalidValue p.verboseName v)))
    ∧ (∀ name v : String,
        (∀ p : Param, p.shortName ≠ name ∧ p.verboseName ≠ name) →
        validate_param name v = .error (.invalidParameter name))
    ∧ (∀ (p : Param) (v : String), ¬(p = .start ∨ p = .end_) →
        p ≠ .magtype → p ≠ .orderby → p ≠ .format →
        (∀ q, pyFloat v = some q →
          validate_param p.shortName v = .ok (p, .num q))
        ∧ (pyFloat v = none →
          validate_param p.shortName v
            = .error (.invalidValue p.shortName v)))
    ∧ (∀ v, fromIso v = none →
        validate_param "start" v = .error (.invalidValue "start" v)
        ∧ validate_param "endtime" v = .error (.invalidValue "endtime" v))
    ∧ (∀ v t, fromIso v = some t →
        validate_param "starttime" v = .ok (.start, .time t)
        ∧ validate_param "end" v = .ok (.end_, .time t))
    ∧ (∀ v : String, v ≠ "time" → v ≠ "time-asc" → v ≠ "magnitude" →
        v ≠ "magnitude-asc" →
        validate_param "orderby" v = .error (.invalidValue "orderby" v))
    ∧ (∀ v : String, v ≠ "text" → v ≠ "xml" →
        validate_param "format" v = .error (.invalidValue "format" v)) := by
  refine ⟨?_, ?_, ?_, ?_, ?_, ?_, ?_⟩
  · intro p v
    have hs := validate_param_resolved p p.shortName v (resolve_short p)
    have hv := validate_param_resolved p p.verboseName v (resolve_verbose p)
    by_cases h1 : p = .start ∨ p = .end_
    · simp only [if_pos h1] at hs hv
      cases hfi : fromIso v with
      | none => simp only [hfi] at hs hv; exact Or.inr ⟨hs, hv⟩
      | some t => simp only [hfi] at hs hv; exact Or.inl ⟨.time t, hs, hv⟩
    · simp only [if_neg h1] at hs hv
      by_cases h2 : p = .magtype
      · simp only [if_pos h2] at hs hv
        exact Or.inl ⟨.str v, hs, hv⟩
      · simp only [if_neg h2] at hs hv
        by_cases h3 : p = .orderby
        · simp only [if_pos h3] at hs hv
          by_cases v1 : v = "time"
          · simp only [if_pos v1] at hs hv; exact Or.inl ⟨_, hs, hv⟩
          · simp only [if_neg v1] at hs hv
            by_cases v2 : v = "time-asc"
            · simp only [if_pos v2] at hs hv; exact Or.inl ⟨_, hs, hv⟩
            · simp only [if_neg v2] at hs hv
              by_cases v3 : v = "magnitude"
              · simp only [if_pos v3] at hs hv; exact Or.inl ⟨_, hs, hv⟩
              · simp only [if_neg v3] at hs hv
                by_cases v4 : v = "magnitude-asc"
                · simp only [if_pos v4] at hs hv; exact Or.inl ⟨_, hs, hv⟩
                · simp only [if_neg v4] at hs hv; exact Or.inr ⟨hs, hv⟩
        · simp only [if_neg h3] at hs hv
          by_cases h4 : p = .format
          · simp only [if_pos h4] at hs hv
            by_cases v5 : v = "text" ∨ v = "xml"
            · simp only [if_pos v5] at hs hv
              exact Or.inl ⟨.str v, hs, hv⟩
            · simp only [if_neg v5] at hs hv; exact Or.inr ⟨hs, hv⟩
          · simp only [if_neg h4] at hs hv
            cases hpf : pyFloat v with
            | none => simp only [hpf] at hs hv; exact Or.inr ⟨hs, hv⟩
            | some q =>
                simp only [hpf] at hs hv
                exact Or.inl ⟨.num q, hs, hv⟩
  · intro name v h
    unfold validate_param
    rw [paramFromVerbose_eq_none (fun p => (h p).2),
      paramFromShort_eq_none (fun p => (h p).1)]
    rfl
  · intro p v h1 h2 h3 h4
    have hs := validate_param_resolved p p.shortName v (resolve_short p)
    simp only [if_neg h1, if_neg h2, if_neg h3, if_neg h4] at hs
    constructor
    · intro q hq
      simp only [hq] at hs
      exact hs
    · intro hq
      simp only [hq] at hs
      exact hs
  · intro v hiso
    have h1 := validate_param_resolved .start "start" v rfl
    have h2 := validate_param_resolved .end_ "endtime" v rfl
    simp only [hiso] at h1 h2
    simp at h1 h2
    exact ⟨h1, h2⟩
  · intro v t hiso
    have h1 := validate_param_resolved .start "starttime" v rfl
    have h2 := validate_param_resolved .end_ "end" v rfl
    simp only [hiso] at h1 h2
    simp at h1 h2
    exact ⟨h1, h2⟩
  · intro v n1 n2 n3 n4
    have h := validate_param_resolved .orderby "orderby" v rfl
    simp [n1, n2, n3, n4] at h
    exact h
  · intro v n1 n2
    have h := validate_param_resolved .format "format" v rfl
    have hnor : ¬(v = "text" ∨ v = "xml") := by
      rintro (hh | hh)
      · exact n1 hh
      · exact n2 hh
    simp [hnor] at h
    exact h

/-- Witness for C9 at concrete inputs: a valid alias pair, an unknown
name, a non-numeric float, and an out-of-enumeration `orderby` value. -/
theorem validate_param_spec_witness :
    validate_param "minmag" "abc" = .error (.invalidValue "minmag" "abc")
    ∧ validate_param "foo" "1" = .error (.invalidParameter "foo")
    ∧ validate_param "orderby" "up"
        = .error (.invalidValue "orderby" "up") :=
  ⟨(validate_param_spec.2.2.1 .minmag "abc" (by decide) (by decide)
      (by decide) (by decide)).2 (by decide),
   validate_param_spec.2.1 "foo" "1"
     (by intro p; cases p <;> exact ⟨by decide, by decide⟩),
   validate_param_spec.2.2.2.2.2.1 "up" (by decide) (by decide) (by decide)
     (by decide)⟩

/-- One of 17 tied sample events: distinct ids and times, equal
magnitude. -/
def tiedEv (k : Nat) : Event :=
  { event_id := k, time := 1000 + k, lat := 0, lon := 0, mag := some 5,
    magtype := "Mw", originalmag := none, originalmagtype := "",
    depth := none, isc_id := 0 }

/-- A 17-event catalog whose magnitudes are all equal — 17 is the
smallest length on which pandas' default quicksort leaves its insertion
sort (stable) and enters its Hoare partition (not stable). -/
def catTies : List Event := (List.range 17).map tiedEv

/-- C4, evaluation at the failing input.  `orderby` is implemented as
`catalog.sort_values(by=..., ascending=...)` (fdsn.py:76) with pandas'
default `kind='quicksort'` (numpy introsort), which is not a stable
sort.  On the all-tied 17-event catalog, `orderby=magnitude-asc` returns
the rows scrambled to 0, 14, 13, …, 1, 7, 16 (the partition's cross
swaps pair off tied elements), whereas the claimed stable sort would
return an all-tied view unchanged; in particular the tied rows 1 and 2
come back in reversed relative order. -/
theorem orderby_quicksort_not_stable :
    ((apply_query_param catTies .orderby (.sort .mag true)).map
        Event.event_id
      = [0, 14, 13, 12, 11, 10, 9, 15, 8, 6, 5, 4, 3, 2, 1, 7, 16])
    ∧ (tiedEv 1).mag = (tiedEv 2).mag
    ∧ [tiedEv 1, tiedEv 2].Sublist catTies
    ∧ ¬ [tiedEv 1, tiedEv 2].Sublist
        (apply_query_param catTies .orderby (.sort .mag true)) := by
  refine ⟨by decide, rfl, by decide, by decide⟩
